import Mathlib

/-!
Verification of the mail ingestion and retrieval pipeline of
`bestK/email_worker_parser` (a Cloudflare email worker, `src/index.ts`,
`src/parser/cursor.js`, `sql/schema.sql`) against its natural-language
specification.  The TypeScript/JavaScript code is shallowly embedded:
JS strings are Lean `String`/`List Char`, JS `null`/`undefined` are
explicit constructors, fallible JS code returns `Except`/`Option`, the
D1 database is a list of rows, and the worker's routing / query / insert
/ forwarding logic is translated function by function.
-/

namespace EmailWorker

/-! ### JavaScript string primitives -/

/-- The character class matched by the JS regex `\s` and skipped by
`parseInt` / `String.prototype.trim`: ASCII whitespace, NBSP, BOM and the
Unicode space separators. -/
def jsWs (c : Char) : Bool :=
  c.toNat = 0x20 || c.toNat = 0x9 || c.toNat = 0xA || c.toNat = 0xD ||
  c.toNat = 0xB || c.toNat = 0xC || c.toNat = 0xA0 || c.toNat = 0xFEFF ||
  c.toNat = 0x1680 || (0x2000 ≤ c.toNat && c.toNat ≤ 0x200A) ||
  c.toNat = 0x2028 || c.toNat = 0x2029 || c.toNat = 0x202F ||
  c.toNat = 0x205F || c.toNat = 0x3000

/-- The character class matched by the JS regex `\d` (no Unicode flag):
exactly the ASCII digits. -/
def jsDigit (c : Char) : Bool :=
  48 ≤ c.toNat && c.toNat ≤ 57

/-- JS `String.prototype.split` with a one-character separator:
`"a;;b".split(';') = ["a","","b"]`, `"".split(';') = [""]`. -/
def splitOnChar (sep : Char) (l : List Char) : List (List Char) :=
  match l with
  | [] => [[]]
  | c :: rest =>
    match splitOnChar sep rest with
    | [] => [[]]
    | g :: gs => if c = sep then [] :: g :: gs else (c :: g) :: gs

/-- Numeric value of a list of ASCII digits, most significant first. -/
def digitsVal (l : List Char) : Nat :=
  l.foldl (fun a c => a * 10 + (c.toNat - 48)) 0

/-- Sign handling of JS `parseInt`: an optional single leading `+` or `-`. -/
def parseSign (l : List Char) : Int × List Char :=
  match l with
  | [] => (1, [])
  | c :: rest =>
    if c = '-' then (-1, rest)
    else if c = '+' then (1, rest)
    else (1, c :: rest)

/-- JS `parseInt(s, 10)`: skip leading whitespace, read an optional sign,
then the longest prefix of decimal digits; `none` models the `NaN` result
when no digit is found. -/
def parseIntJS (s : String) : Option Int :=
  let l := s.data.dropWhile jsWs
  let sr := parseSign l
  let ds := sr.2.takeWhile jsDigit
  if ds = [] then none else some (sr.1 * (digitsVal ds : Int))

/-! ### GET /email/:address — effective result limit (index.ts:126-130)

The handler reads `limit = url.searchParams.get('limit')` (a string or
`null`) and computes `const maxResults = limit ? parseInt(limit, 10) : 10`.
A JS string is falsy exactly when it is empty, so `null` and `""` give the
default `10`; any other string is fed to `parseInt` unchanged, with no
clamping.  `none` in the result models `NaN`. -/
def maxResults (limit : Option String) : Option Int :=
  match limit with
  | none => some 10
  | some s => if s = "" then some 10 else parseIntJS s

/-! ### The "cursor" one-time-code extractor (parser/cursor.js)

`parse(text)` does `text.replace(/\s+/g, ' ').trim()`, then tries
`/one-time code is:?\s*(\d+)/i` returning the captured digits, then falls
back to the first match of `/\d{6}/`, else returns `null`.  Calling it with
a non-string (`null` text column) throws a `TypeError` at `.replace`. -/

/-- JS `text.replace(/\s+/g, ' ')`: every maximal run of whitespace becomes
a single space. -/
def collapseWs (l : List Char) : List Char :=
  match l with
  | [] => []
  | [c] => if jsWs c then [' '] else [c]
  | c :: c2 :: rest =>
    if jsWs c && jsWs c2 then collapseWs (c2 :: rest)
    else (if jsWs c then ' ' else c) :: collapseWs (c2 :: rest)

/-- JS `String.prototype.trim`: strip leading and trailing whitespace. -/
def trimWs (l : List Char) : List Char :=
  ((l.dropWhile jsWs).reverse.dropWhile jsWs).reverse

/-- ASCII-only simple case folding, as the regex `i` flag applies to the
ASCII letters of the pattern `one-time code is`. -/
def lowerAscii (c : Char) : Char :=
  if 65 ≤ c.toNat && c.toNat ≤ 90 then Char.ofNat (c.toNat + 32) else c

/-- Match a literal pattern case-insensitively at the head of the input,
returning the remaining input on success. -/
def matchLitCI (pat l : List Char) : Option (List Char) :=
  match pat, l with
  | [], rest => some rest
  | _ :: _, [] => none
  | p :: ps, c :: cs => if lowerAscii c = p then matchLitCI ps cs else none

/-- One attempt of `/one-time code is:?\s*(\d+)/i` anchored at the head of
the input: the literal phrase, an optional `:`, greedy `\s*`, then the
captured greedy `(\d+)` which must be nonempty.  (No backtracking is
possible here since `:`, `\s` and `\d` are pairwise disjoint.) -/
def phraseAt (l : List Char) : Option (List Char) :=
  match matchLitCI ("one-time code is".data) l with
  | none => none
  | some rest =>
    let rest2 := match rest with
      | ':' :: r => r
      | r => r
    let ds := (rest2.dropWhile jsWs).takeWhile jsDigit
    if ds = [] then none else some ds

/-- Leftmost match of `/one-time code is:?\s*(\d+)/i`: try `phraseAt` at
every position, left to right. -/
def findPhrase (l : List Char) : Option (List Char) :=
  match l with
  | [] => none
  | _ :: rest =>
    match phraseAt l with
    | some d => some d
    | none => findPhrase rest

/-- Does `/\d{6}/` match at the head of the input, i.e. are the first six
characters all digits? -/
def sixHere (l : List Char) : Bool :=
  (l.take 6).length = 6 && (l.take 6).all jsDigit

/-- Leftmost match of `/\d{6}/`: the first position at which six
consecutive digits start, returning those six digits. -/
def findSix (l : List Char) : Option (List Char) :=
  match l with
  | [] => none
  | _ :: rest => if sixHere l then some (l.take 6) else findSix rest

/-- `parse` of parser/cursor.js applied to a string argument. -/
def cursorParseStr (s : String) : Option String :=
  let clean := trimWs (collapseWs s.data)
  match findPhrase clean with
  | some d => some ⟨d⟩
  | none => (findSix clean).map (fun d => (⟨d⟩ : String))

/-- A JS extractor as called by the route handler: it receives the row's
`text` column (a string or SQL `NULL`, i.e. JS `null`) and either returns a
string-or-null result or throws. -/
def JsParser : Type := Option String → Except String (Option String)

/-- `parse` of parser/cursor.js as a JS function: a `null` argument makes
`text.replace` throw a `TypeError`. -/
def cursorParseJS : JsParser := fun t =>
  match t with
  | none => Except.error "Cannot read properties of null (reading 'replace')"
  | some s => Except.ok (cursorParseStr s)

/-- Modelled from the spec: the extractor registry `src/parser/index.js` is
not in the source tree; per the spec it is a mapping from a parser name to
a pure text-extraction function, and the only extractor shipped (§4.5, and
the only option offered by the UI page) is `"cursor"`. -/
def parsers (name : String) : Option JsParser :=
  if name = "cursor" then some cursorParseJS else none

/-! ### decodeURIComponent

ECMA-262 `decodeURIComponent`: each `%XY` escape (two hex digits required)
contributes a byte; each maximal run of escape bytes must be a valid, shortest
UTF-8 encoding of code points outside the surrogate range; any violation
throws a `URIError`.  Unescaped characters pass through. -/

/-- Value of a hexadecimal digit character. -/
def hexVal (c : Char) : Option Nat :=
  if 48 ≤ c.toNat && c.toNat ≤ 57 then some (c.toNat - 48)
  else if 97 ≤ c.toNat && c.toNat ≤ 102 then some (c.toNat - 87)
  else if 65 ≤ c.toNat && c.toNat ≤ 70 then some (c.toNat - 55)
  else none

/-- First pass: turn `%XY` escapes into bytes (`Sum.inr`) and keep other
characters (`Sum.inl`); a `%` not followed by two hex digits is a `URIError`. -/
def uriTokenize (l : List Char) : Option (List (Char ⊕ Nat)) :=
  match l with
  | [] => some []
  | c :: rest =>
    if c = '%' then
      match rest with
      | a :: b :: rest2 =>
        match hexVal a, hexVal b with
        | some h, some lo =>
          (uriTokenize rest2).map (fun ts => Sum.inr (16 * h + lo) :: ts)
        | _, _ => none
      | _ => none
    else (uriTokenize rest).map (fun ts => Sum.inl c :: ts)

/-- Classify a UTF-8 lead byte: number of continuation bytes and initial
accumulator.  Rejects `0x80..0xC1` and `0xF5..0xFF`. -/
def utf8Lead (b : Nat) : Option (Nat × Nat) :=
  if b < 0x80 then some (0, b)
  else if 0xC2 ≤ b && b ≤ 0xDF then some (1, b - 0xC0)
  else if 0xE0 ≤ b && b ≤ 0xEF then some (2, b - 0xE0)
  else if 0xF0 ≤ b && b ≤ 0xF4 then some (3, b - 0xF4 + 4)
  else none

/-- Valid range of a continuation byte; the first continuation after the
leads `E0`, `ED`, `F0`, `F4` is restricted to exclude overlong encodings
and surrogates. -/
def utf8ContOk (lead : Nat) (first : Bool) (b : Nat) : Bool :=
  if first && lead = 0xE0 then 0xA0 ≤ b && b ≤ 0xBF
  else if first && lead = 0xED then 0x80 ≤ b && b ≤ 0x9F
  else if first && lead = 0xF0 then 0x90 ≤ b && b ≤ 0xBF
  else if first && lead = 0xF4 then 0x80 ≤ b && b ≤ 0x8F
  else 0x80 ≤ b && b ≤ 0xBF

/-- Second pass: assemble escape bytes into code points with a UTF-8 state
machine; `pend` is the number of continuation bytes still expected, `lead`
the lead byte, `acc` the partial code point, `first` whether the next
continuation byte is the first one. -/
def uriAssemble (ts : List (Char ⊕ Nat)) (pend lead acc : Nat) (first : Bool) :
    Option (List Char) :=
  match ts, pend with
  | [], 0 => some []
  | [], _ + 1 => none
  | Sum.inl c :: rest, 0 => (uriAssemble rest 0 0 0 false).map (fun cs => c :: cs)
  | Sum.inl _ :: _, _ + 1 => none
  | Sum.inr b :: rest, 0 =>
    match utf8Lead b with
    | none => none
    | some (0, v) => (uriAssemble rest 0 0 0 false).map (fun cs => Char.ofNat v :: cs)
    | some (k + 1, v) => uriAssemble rest (k + 1) b v true
  | Sum.inr b :: rest, pc + 1 =>
    if utf8ContOk lead first b then
      match pc with
      | 0 => (uriAssemble rest 0 0 0 false).map
          (fun cs => Char.ofNat (acc * 64 + (b - 0x80)) :: cs)
      | pc' + 1 => uriAssemble rest (pc' + 1) lead (acc * 64 + (b - 0x80)) false
    else none

/-- `decodeURIComponent`; `Except.error ()` models a thrown `URIError`. -/
def decodeURIComponent (s : String) : Except Unit String :=
  match uriTokenize s.data with
  | none => Except.error ()
  | some ts =>
    match uriAssemble ts 0 0 0 false with
    | none => Except.error ()
    | some cs => Except.ok (⟨cs⟩ : String)

/-! ### The path router (index.ts:37-69, 482-493)

`matchRoute` iterates the registered routes in registration order, splits
pattern and path on `/` discarding empty segments (`filter(Boolean)`),
requires equal segment counts, binds `:`-prefixed pattern segments to the
URL-decoded path segment, and requires other segments to match literally.
`decodeURIComponent` can throw, and nothing catches it. -/

/-- Does a pattern segment start with `:` (a named parameter)? -/
def isParamSeg (s : String) : Bool :=
  match s.data with
  | ':' :: _ => true
  | _ => false

/-- The name of a parameter segment: JS `routeParts[i].substring(1)`. -/
def paramName (s : String) : String :=
  ⟨s.data.drop 1⟩

/-- Split a path on `/` and drop empty segments, as
`url.split('/').filter(Boolean)`. -/
def pathParts (p : String) : List String :=
  ((splitOnChar '/' p.data).map (fun cs => (⟨cs⟩ : String))).filter
    (fun s => s ≠ "")

/-- JS object property assignment `params[name] = value`: replace an
existing key in place, otherwise append. -/
def jsRecordSet (acc : List (String × String)) (k v : String) :
    List (String × String) :=
  match acc with
  | [] => [(k, v)]
  | (k', v') :: rest =>
    if k' = k then (k, v) :: rest else (k', v') :: jsRecordSet rest k v

/-- The inner segment loop of `matchRoute` for one candidate route, over
equal-length segment lists: `Except.error ()` is an uncaught `URIError`
from decoding a parameter segment, `Option` is match failure vs. the
accumulated parameter record. -/
def matchSegs (rps ups : List String) (acc : List (String × String)) :
    Except Unit (Option (List (String × String))) :=
  match rps, ups with
  | [], _ => Except.ok (some acc)
  | rp :: rest, up :: urest =>
    if isParamSeg rp then
      match decodeURIComponent up with
      | Except.error e => Except.error e
      | Except.ok v => matchSegs rest urest (jsRecordSet acc (paramName rp) v)
    else if rp = up then matchSegs rest urest acc
    else Except.ok none
  | _ :: _, [] => Except.ok none

/-- The routes registered by index.ts, in registration order (lines 74,
121, 168, 239, 475): method and path pattern. -/
def routesModel : List (String × String) :=
  [("GET", "/email/create"), ("GET", "/email/:address"), ("GET", "/help"),
   ("GET", "/ui"), ("GET", "/")]

/-- The route-table loop of `matchRoute`: skip routes whose method or
segment count differs, return the first structural match (pattern plus
parameter record), propagate a decoding `URIError`. -/
def matchRouteAux (rs : List (String × String)) (method url : String) :
    Except Unit (Option (String × List (String × String))) :=
  match rs with
  | [] => Except.ok none
  | (m, pat) :: rest =>
    if m ≠ method then matchRouteAux rest method url
    else if (pathParts pat).length ≠ (pathParts url).length then
      matchRouteAux rest method url
    else
      match matchSegs (pathParts pat) (pathParts url) [] with
      | Except.error e => Except.error e
      | Except.ok (some ps) => Except.ok (some (pat, ps))
      | Except.ok none => matchRouteAux rest method url

/-- `matchRoute(method, url)` of index.ts over the registered route table;
`Except.ok none` is the JS `null` no-match result. -/
def matchRoute (method url : String) :
    Except Unit (Option (String × List (String × String))) :=
  matchRouteAux routesModel method url

/-! ### JSON values and HTTP responses -/

/-- A JSON value as produced by `JSON.stringify` of the handlers' response
bodies. -/
inductive JVal where
  | jnull : JVal
  | bool (b : Bool) : JVal
  | str (s : String) : JVal
  | arr (items : List JVal) : JVal
  | obj (fields : List (String × JVal)) : JVal

/-- Look a field up in a JSON object (first binding wins, as objects here
have no duplicate keys). -/
def jvalGet (v : JVal) (k : String) : Option JVal :=
  match v with
  | JVal.obj fs => (fs.find? (fun f => f.1 = k)).map (fun f => f.2)
  | _ => none

/-- An HTTP response: status code plus JSON body. -/
structure HttpResponse where
  status : Nat
  body : JVal

/-- The uniform 404 response of `fetch` when `matchRoute` returns `null`
(index.ts:490-492). -/
def notFoundResponse : HttpResponse :=
  { status := 404,
    body := JVal.obj
      [("error", JVal.str "Invalid path. Use /email/create or /email/:address")] }

/-- Outcome of the `fetch` dispatcher's routing step: either the matched
route (whose handler then runs) or the 404 response. -/
inductive FetchRouting where
  | matched (pattern : String) (params : List (String × String)) : FetchRouting
  | notFound (resp : HttpResponse) : FetchRouting

/-- The routing step of `fetch` (index.ts:483-493): match, else the uniform
404 JSON body; an exception thrown by `matchRoute` propagates. -/
def fetchRouting (method path : String) : Except Unit FetchRouting :=
  match matchRoute method path with
  | Except.error e => Except.error e
  | Except.ok (some (pat, ps)) => Except.ok (FetchRouting.matched pat ps)
  | Except.ok none => Except.ok (FetchRouting.notFound notFoundResponse)

/-! ### The Email table and the SELECT of GET /email/:address
(sql/schema.sql, index.ts:134-137)

All text columns of `Email` are nullable; `createdAt` defaults to the
insertion time (a `DATETIME` whose SQL ordering we model by a `Nat`
timestamp).  The query is
`SELECT ... FROM Email WHERE "to" = ? ORDER BY createdAt DESC LIMIT ?`;
`=` on a `TEXT` column without a collation clause uses SQLite's default
BINARY collation, i.e. exact byte equality, and `NULL = x` is not true. -/

/-- A stored row of the `Email` table, with the columns the SELECT
returns. -/
structure Row where
  subject : Option String
  «from» : Option String
  «to» : Option String
  html : Option String
  text : Option String
  createdAt : Nat
  deriving DecidableEq

/-- SQL `col = v` for a nullable text column under BINARY collation. -/
def sqliteTextEq (col : Option String) (v : String) : Bool :=
  match col with
  | some t => t = v
  | none => false

/-- Insert a row into a list sorted by `createdAt` descending. -/
def insertDesc (r : Row) (l : List Row) : List Row :=
  match l with
  | [] => [r]
  | x :: xs =>
    if x.createdAt < r.createdAt then r :: x :: xs else x :: insertDesc r xs

/-- `ORDER BY createdAt DESC` as an insertion sort. -/
def sortByCreatedAtDesc (l : List Row) : List Row :=
  l.foldr insertDesc []

/-- SQLite `LIMIT ?`: a negative bound means no limit. -/
def sqliteLimit (n : Int) (rows : List Row) : List Row :=
  if n < 0 then rows else rows.take n.toNat

/-- The result set of the handler's SELECT against a database state:
filter on `"to" = address`, newest first, limited. -/
def emailSelect (db : List Row) (address : String) (lim : Int) : List Row :=
  sqliteLimit lim (sortByCreatedAtDesc (db.filter (fun r => sqliteTextEq r.«to» address)))

/-! ### The success branch of GET /email/:address (index.ts:126-164)

On DB success the handler optionally applies the named extractor to every
row's `text` column (`results.forEach(item => { item['parsed_code'] =
parser(item.text) })`) inside the surrounding `try`, so an extractor throw
is caught and turned into the 500 `'Query error'` envelope. -/

/-- The handler's parser lookup
`parserName ? parsers[parserName] : null` (index.ts:131): `null` when the
query parameter is absent or empty (falsy), otherwise a registry lookup
that yields `undefined` for unknown names. -/
def parserFor (parserName : Option String) : Option JsParser :=
  match parserName with
  | none => none
  | some n => if n = "" then none else parsers n

/-- The `results.forEach` loop applying the extractor to each row's `text`
column; a throw at any row propagates (the partially mutated rows are
discarded by the catch). -/
def applyParserToRows (p : JsParser) (rows : List Row) :
    Except String (List (Row × Option String)) :=
  match rows with
  | [] => Except.ok []
  | r :: rest =>
    match p r.text with
    | Except.error e => Except.error e
    | Except.ok code => (applyParserToRows p rest).map (fun l => (r, code) :: l)

/-- The response of the success branch of GET /email/:address, with
field-presence made explicit: `data` rows carry their `parsed_code` field
(`Option (Option String)`: present-or-not, then string-or-null) only when a
parser ran; `error`/`details` are set by the catch branch. -/
structure QueryResponse where
  status : Nat
  success : Bool
  data : Option (List (Row × Option (Option String)))
  error : Option String
  details : Option String
  deriving DecidableEq

/-- Lines 139-164 of index.ts given a successful DB result `rows`: apply
the looked-up parser if any; a parser throw is caught and converted into
the 500 `'Query error'` envelope. -/
def emailQueryResponse (parserName : Option String) (rows : List Row) :
    QueryResponse :=
  match parserFor parserName with
  | none =>
    { status := 200, success := true,
      data := some (rows.map (fun r => (r, none))),
      error := none, details := none }
  | some p =>
    match applyParserToRows p rows with
    | Except.ok aug =>
      { status := 200, success := true,
        data := some (aug.map (fun rc => (rc.1, some rc.2))),
        error := none, details := none }
    | Except.error m =>
      { status := 500, success := false, data := none,
        error := some "Query error", details := some m }

/-! ### The INSERT of the email handler (index.ts:501-511)

The handler binds
`(parsedEmail.subject ?? 'None', parsedEmail.from?.address,
parsedEmail.to[0]?.address ?? 'None', parsedEmail.html, parsedEmail.text)`.
A D1 bind value must be a defined scalar, `null`, or a buffer; binding
JS `undefined` throws a type error, which the surrounding `catch` then
swallows. -/

/-- A value passed to `stmt.bind(...)`: a string, JS `null`, or JS
`undefined` (which D1 rejects). -/
inductive D1Value where
  | str (s : String) : D1Value
  | null : D1Value
  | undefined : D1Value
  deriving DecidableEq

/-- A postal-mime address object `{ address?: string, name: string }`. -/
structure MailAddress where
  address : Option String
  name : String
  deriving DecidableEq

/-- The fields of the postal-mime parse result used by the INSERT:
optional subject, optional `from` address object, the `to` address list,
optional html and text bodies (`none` models an absent/undefined field). -/
structure ParsedEmail where
  subject : Option String
  «from» : Option MailAddress
  «to» : List MailAddress
  html : Option String
  text : Option String
  deriving DecidableEq

/-- JS `x ?? 'None'` over an optional string, as a bind value. -/
def strOrNone (v : Option String) : D1Value :=
  match v with
  | some s => D1Value.str s
  | none => D1Value.str "None"

/-- JS optional member access `x?.address` as a bind value: `undefined`
when the object or its `address` property is absent. -/
def optAddress (a : Option MailAddress) : D1Value :=
  match a with
  | some addr =>
    match addr.address with
    | some s => D1Value.str s
    | none => D1Value.undefined
  | none => D1Value.undefined

/-- A plain optional property as a bind value: `undefined` when absent. -/
def strOrUndefined (v : Option String) : D1Value :=
  match v with
  | some s => D1Value.str s
  | none => D1Value.undefined

/-- The five bind values of the INSERT, in column order
`subject, from, to, html, text` (index.ts:504-510):
`parsedEmail.to[0]?.address ?? 'None'` falls back to `'None'` when the
`to` list is empty or its first entry has no address. -/
def insertBinds (m : ParsedEmail) : List D1Value :=
  [ strOrNone m.subject,
    optAddress m.«from»,
    (match m.«to».head? with
     | some a =>
       match a.address with
       | some s => D1Value.str s
       | none => D1Value.str "None"
     | none => D1Value.str "None"),
    strOrUndefined m.html,
    strOrUndefined m.text ]

/-- Does the D1 binding layer accept these values?  It rejects
`undefined`. -/
def d1BindOk (vs : List D1Value) : Bool :=
  vs.all (fun v =>
    match v with
    | D1Value.undefined => false
    | _ => true)

/-- The INSERT step of the email handler: binding an `undefined` value
throws a D1 type error, which the handler's `catch` will swallow. -/
def insertEmail (m : ParsedEmail) : Except String Unit :=
  if d1BindOk (insertBinds m) then Except.ok () else Except.error "D1_TYPE_ERROR"

/-! ### The email event handler (index.ts:495-520)

```
try { ...parse...; ...insert... } catch (error) { console.error(...) }
finally {
  const list = env.forward_address.split(';');
  for (const address of list) { await message.forward(address); }
}
```
The forward list is the raw `split(';')` — no trimming, no dropping of
empty pieces — and each `message.forward` is awaited with no per-address
`try`/`catch`, so the first rejection aborts the loop and propagates out
of the `finally` block. -/

/-- `env.forward_address.split(';')`. -/
def forwardList (forward_address : String) : List String :=
  (splitOnChar ';' forward_address.data).map (fun cs => (⟨cs⟩ : String))

/-- The `for (const address of list) await message.forward(address)` loop:
returns the addresses for which a forward call was attempted, in order,
and the exception of the first failing call, which aborts the rest. -/
def forwardLoop {ε : Type} (fwd : String → Except ε Unit) (l : List String) :
    List String × Option ε :=
  match l with
  | [] => ([], none)
  | a :: rest =>
    match fwd a with
    | Except.error e => ([a], some e)
    | Except.ok _ =>
      let r := forwardLoop fwd rest
      (a :: r.1, r.2)

/-- JS `try`/`catch`/`finally` completion semantics: an abrupt completion
of the `finally` block replaces any earlier completion; otherwise the
completion is the `try` block's, or the `catch` block's if the `try`
threw. -/
def tryCatchFinally {ε α β : Type} (body : Except ε α) (catchFn : ε → Except ε Unit)
    (finallyB : Except ε β) : Except ε Unit :=
  match finallyB with
  | Except.error e => Except.error e
  | Except.ok _ =>
    match body with
    | Except.ok _ => Except.ok ()
    | Except.error e => catchFn e

/-- Observable result of one email event: which forwards were attempted
and how the handler invocation completed. -/
structure EmailEventResult (ε : Type) where
  attempted : List String
  outcome : Except ε Unit

/-- The email handler: `ingest` is the combined parse-and-insert body of
the `try` block, the `catch` only logs (it never throws), and the
`finally` block runs the forwarding loop over `split(';')` of the
configured forward addresses. -/
def emailEvent {ε : Type} (ingest : Except ε Unit) (fwd : String → Except ε Unit)
    (forward_address : String) : EmailEventResult ε :=
  let fl := forwardLoop fwd (forwardList forward_address)
  { attempted := fl.1,
    outcome :=
      tryCatchFinally ingest (fun _ => Except.ok ())
        (match fl.2 with
         | some e => (Except.error e : Except ε Unit)
         | none => Except.ok ()) }

/-! ### GET /email/create (index.ts:74-118)

The handler calls the Cloudflare API to create a routing rule; on
`rule && rule.success` it returns a 200 success envelope whose `data` has
exactly the fields `fetch_endpoint` and `address`, otherwise a 500 error
envelope, and a thrown API error is caught into another 500 envelope. -/

/-- Outcome of `client.email.rules.create(...)`: a result object with its
`success` flag and `errors` array, the `null` result of an empty API
response, or a thrown error. -/
inductive RuleCreateOutcome where
  | result (success : Bool) (errors : List String) : RuleCreateOutcome
  | nullResult : RuleCreateOutcome
  | thrown (msg : String) : RuleCreateOutcome
  deriving DecidableEq

/-- The response of GET /email/create as a function of the API call's
outcome and the generated random address. -/
def createHandler (o : RuleCreateOutcome) (randomEmail : String) : HttpResponse :=
  match o with
  | RuleCreateOutcome.result true _ =>
    { status := 200,
      body := JVal.obj
        [("success", JVal.bool true),
         ("data", JVal.obj
           [("fetch_endpoint", JVal.str ("/email/" ++ randomEmail)),
            ("address", JVal.str randomEmail)])] }
  | RuleCreateOutcome.result false errs =>
    { status := 500,
      body := JVal.obj
        [("success", JVal.bool false),
         ("error", JVal.str "Failed to create email rule via Cloudflare API"),
         ("details", JVal.arr (errs.map JVal.str))] }
  | RuleCreateOutcome.nullResult =>
    { status := 500,
      body := JVal.obj
        [("success", JVal.bool false),
         ("error", JVal.str "Failed to create email rule via Cloudflare API"),
         ("details", JVal.str "Unknown API error")] }
  | RuleCreateOutcome.thrown msg =>
    { status := 500,
      body := JVal.obj
        [("success", JVal.bool false),
         ("error", JVal.str "Error communicating with Cloudflare API"),
         ("details", JVal.str msg)] }

/-! ## Helper lemmas -/

/-- An ASCII digit is not JS whitespace. -/
theorem jsDigit_not_ws (c : Char) (h : jsDigit c = true) : jsWs c = false := by
  simp only [jsDigit, Bool.and_eq_true, decide_eq_true_eq] at h
  simp only [jsWs, Bool.or_eq_false_iff, Bool.and_eq_false_iff,
    decide_eq_false_iff_not]
  omega

/-- `takeWhile` keeps a list all of whose elements satisfy the predicate. -/
theorem takeWhile_of_all {p : Char → Bool} (l : List Char) (h : l.all p = true) :
    l.takeWhile p = l := by
  induction l with
  | nil => rfl
  | cons c cs ih =>
    simp only [List.all_cons, Bool.and_eq_true] at h
    simp [List.takeWhile_cons, h.1, ih h.2]

/-- `dropWhile jsWs` is the identity on a list of digits. -/
theorem dropWhile_ws_of_digits (l : List Char) (h : l.all jsDigit = true) :
    l.dropWhile jsWs = l := by
  cases l with
  | nil => rfl
  | cons c cs =>
    simp only [List.all_cons, Bool.and_eq_true] at h
    simp [List.dropWhile_cons, jsDigit_not_ws c h.1]

/-! ## Claim C1 — the effective result limit -/

/-- C1 counterexample: the code does not clamp the parsed `limit` into
`[1, 50]` and does not replace a `NaN` parse by the default: `"999"`
yields `999` (the claim says `50`), `"0"` yields `0` (the claim says `1`),
and `"abc"` yields `NaN` (the claim says `10`). -/
theorem limit_clamp_counterexample :
    maxResults (some "999") = some 999 ∧ (some (999 : Int) ≠ some (50 : Int)) ∧
    maxResults (some "0") = some 0 ∧ (some (0 : Int) ≠ some (1 : Int)) ∧
    maxResults (some "abc") = none ∧ (none ≠ some (10 : Int)) := by
  refine ⟨by decide, by decide, by decide, by decide, by decide, by decide⟩

/-- C1 (amended): the effective limit is `10` when the `limit` query
parameter is absent or the empty string, and otherwise is exactly
`parseInt(limit, 10)` with no clamping and no `NaN` fallback: a nonempty
all-digit parameter yields its numeric value (so `"0"` gives `0` and
`"999"` gives `999`), and a parameter with no leading digits yields `NaN`
(modelled as `none`). -/
theorem limit_semantics :
    (∀ s : String, s.data ≠ [] → s.data.all jsDigit = true →
      maxResults (some s) = some ((digitsVal s.data : Nat) : Int)) ∧
    maxResults none = some 10 ∧
    maxResults (some "") = some 10 ∧
    maxResults (some "abc") = none ∧
    maxResults (some "0") = some 0 ∧
    maxResults (some "999") = some 999 ∧
    maxResults (some "7") = some 7 := by
  refine ⟨?_, rfl, by decide, by decide, by decide, by decide, by decide⟩
  intro s hne hdig
  have hs : ¬s = "" := by
    intro h
    exact hne (congrArg String.data h)
  have hdrop : s.data.dropWhile jsWs = s.data := dropWhile_ws_of_digits _ hdig
  have hsign : parseSign s.data = (1, s.data) := by
    cases hd : s.data with
    | nil => exact absurd hd hne
    | cons c cs =>
      have hc : jsDigit c = true := by
        have := hdig
        rw [hd] at this
        simp only [List.all_cons, Bool.and_eq_true] at this
        exact this.1
      have hminus : ¬c = '-' := by
        intro h
        rw [h] at hc
        simp [jsDigit] at hc
      have hplus : ¬c = '+' := by
        intro h
        rw [h] at hc
        simp [jsDigit] at hc
      simp [parseSign, hminus, hplus]
  have htake : s.data.takeWhile jsDigit = s.data := takeWhile_of_all _ hdig
  simp only [maxResults, if_neg hs, parseIntJS, hdrop, hsign, htake]
  rw [if_neg hne]
  simp

/-- C1 witness: the amended limit rule evaluated at the all-digit
parameter `"7"`. -/
theorem limit_semantics_witness :
    ("7" : String).data ≠ [] ∧ ("7" : String).data.all jsDigit = true ∧
    maxResults (some "7") = some ((digitsVal ("7" : String).data : Nat) : Int) :=
  ⟨by decide, by decide, limit_semantics.1 "7" (by decide) (by decide)⟩

/-! ## Claim C2 — address matching of the SELECT -/

/-- Membership in a descending insertion. -/
theorem mem_insertDesc (a r : Row) (l : List Row) :
    a ∈ insertDesc r l ↔ a = r ∨ a ∈ l := by
  induction l with
  | nil => simp [insertDesc]
  | cons x xs ih =>
    by_cases hlt : x.createdAt < r.createdAt
    · simp only [insertDesc, if_pos hlt, List.mem_cons]
    · simp only [insertDesc, if_neg hlt, List.mem_cons, ih]
      tauto

/-- The `ORDER BY` sort does not change the set of rows. -/
theorem mem_sortByCreatedAtDesc (a : Row) (l : List Row) :
    a ∈ sortByCreatedAtDesc l ↔ a ∈ l := by
  induction l with
  | nil => simp [sortByCreatedAtDesc]
  | cons x xs ih =>
    show a ∈ insertDesc x (sortByCreatedAtDesc xs) ↔ _
    rw [mem_insertDesc, ih]
    simp [List.mem_cons]

/-- C2 counterexample: the `WHERE "to" = ?` comparison uses SQLite's
default BINARY collation, so a row stored with `to = "User@Example.com"`
is NOT returned by a query for `"user@example.com"`. -/
theorem select_case_counterexample :
    emailSelect [⟨some "s1", some "a@b.c", some "User@Example.com", none,
      some "body", 5⟩] "user@example.com" 10 = [] ∧
    (⟨some "s1", some "a@b.c", some "User@Example.com", none, some "body", 5⟩ : Row) ∉
      emailSelect [⟨some "s1", some "a@b.c", some "User@Example.com", none,
        some "body", 5⟩] "user@example.com" 10 := by
  refine ⟨by decide, by decide⟩

/-- C2 (amended): the lookup of GET /email/:address matches the stored
`to` column case-sensitively: every returned row's `to` column is exactly
(byte for byte) the query address, and a row whose stored `to` equals the
query address in the same case is returned. -/
theorem select_to_semantics :
    (∀ (db : List Row) (addr : String) (lim : Int) (r : Row),
      r ∈ emailSelect db addr lim → r.«to» = some addr) ∧
    emailSelect [⟨some "s1", some "a@b.c", some "User@Example.com", none,
      some "body", 5⟩] "User@Example.com" 10 =
      [⟨some "s1", some "a@b.c", some "User@Example.com", none, some "body", 5⟩] := by
  constructor
  · intro db addr lim r h
    have hsorted : r ∈ sortByCreatedAtDesc (db.filter (fun r => sqliteTextEq r.«to» addr)) := by
      unfold emailSelect sqliteLimit at h
      by_cases hneg : lim < 0
      · rw [if_pos hneg] at h
        exact h
      · rw [if_neg hneg] at h
        exact List.mem_of_mem_take h
    have hfilter : r ∈ db.filter (fun r => sqliteTextEq r.«to» addr) :=
      (mem_sortByCreatedAtDesc r _).mp hsorted
    have hpred : sqliteTextEq r.«to» addr = true := (List.mem_filter.mp hfilter).2
    cases hto : r.«to» with
    | none =>
      rw [hto] at hpred
      simp [sqliteTextEq] at hpred
    | some t =>
      rw [hto] at hpred
      simp only [sqliteTextEq, decide_eq_true_eq] at hpred
      rw [hpred]
  · decide

/-- C2 witness: exact-case lookup instantiated at a concrete database of
one row. -/
theorem select_to_semantics_witness :
    (⟨some "s1", some "a@b.c", some "User@Example.com", none, some "body", 5⟩ : Row) ∈
      emailSelect [⟨some "s1", some "a@b.c", some "User@Example.com", none,
        some "body", 5⟩] "User@Example.com" 10 ∧
    (⟨some "s1", some "a@b.c", some "User@Example.com", none, some "body", 5⟩ : Row).«to» =
      some "User@Example.com" :=
  ⟨by decide,
   select_to_semantics.1
     [⟨some "s1", some "a@b.c", some "User@Example.com", none, some "body", 5⟩]
     "User@Example.com" 10
     ⟨some "s1", some "a@b.c", some "User@Example.com", none, some "body", 5⟩
     (by decide)⟩

/-! ## Claim C3 — the forwarding loop -/

/-- C3 counterexample: the code splits the configured forward addresses on
`;` without trimming or dropping empty pieces, so `"a@x.com;;  b@x.com"`
produces three forward attempts (`"a@x.com"`, `""`, `"  b@x.com"`), not
two; a failure of the first attempt aborts the loop so the remaining
addresses are NOT attempted; and the empty configuration produces one
attempt (to `""`), not zero. -/
theorem forward_split_counterexample :
    forwardList "a@x.com;;  b@x.com" = ["a@x.com", "", "  b@x.com"] ∧
    (forwardLoop (fun _ => (Except.ok () : Except Unit Unit))
      (forwardList "a@x.com;;  b@x.com")).1.length = 3 ∧
    forwardLoop
      (fun a => if a = "a@x.com" then Except.error () else (Except.ok () : Except Unit Unit))
      (forwardList "a@x.com;;  b@x.com") = (["a@x.com"], some ()) ∧
    forwardList "" = [""] := by
  refine ⟨by decide, by decide, by decide, by decide⟩

/-- All-success forwarding attempts every piece of the raw split. -/
theorem forwardLoop_all_ok {ε : Type} (fwd : String → Except ε Unit)
    (h : ∀ a, fwd a = Except.ok ()) (l : List String) :
    forwardLoop fwd l = (l, none) := by
  induction l with
  | nil => rfl
  | cons a rest ih =>
    simp [forwardLoop, h a, ih]

/-- C3 (amended): the ingestion pipeline splits the configured
forward-address string on `;` with no trimming and no dropping of empty
pieces, and attempts one forward call per piece in order; when every call
succeeds each piece of the raw split — `["a@x.com", "", "  b@x.com"]` for
the list `"a@x.com;;  b@x.com"` — is attempted exactly once, but the first
failing call aborts the loop, its error propagates, and later pieces are
not attempted; the empty configuration string produces one attempt with
the empty string. -/
theorem forward_semantics :
    (∀ (ε : Type) (fwd : String → Except ε Unit) (s : String),
      (∀ a, fwd a = Except.ok ()) →
      forwardLoop fwd (forwardList s) = (forwardList s, none)) ∧
    (∀ (ε : Type) (fwd : String → Except ε Unit) (a : String)
      (rest : List String) (e : ε), fwd a = Except.error e →
      forwardLoop fwd (a :: rest) = ([a], some e)) ∧
    forwardList "a@x.com;;  b@x.com" = ["a@x.com", "", "  b@x.com"] ∧
    forwardList "" = [""] := by
  refine ⟨?_, ?_, by decide, by decide⟩
  · intro ε fwd s h
    exact forwardLoop_all_ok fwd h (forwardList s)
  · intro ε fwd a rest e h
    simp [forwardLoop, h]

/-- C3 witness: the amended forwarding semantics at a concrete
configuration, an always-succeeding forwarder and a forwarder failing on
its first address. -/
theorem forward_semantics_witness :
    forwardLoop (fun _ => (Except.ok () : Except Unit Unit))
      (forwardList "a@x.com;;  b@x.com") =
      (forwardList "a@x.com;;  b@x.com", none) ∧
    forwardLoop (fun _ => (Except.error () : Except Unit Unit))
      ("a@x.com" :: ["", "  b@x.com"]) = (["a@x.com"], some ()) :=
  ⟨forward_semantics.1 Unit _ "a@x.com;;  b@x.com" (fun _ => rfl),
   forward_semantics.2.1 Unit _ "a@x.com" ["", "  b@x.com"] () rfl⟩

/-! ## Claim C4 — parse/insert failures never block forwarding -/

/-- C4: the observable behaviour of the email event handler — which
forward calls are attempted and how the invocation completes — is
identical whether the parse-and-insert body of the `try` block succeeds or
throws: the failure is swallowed by the `catch` (so it never propagates to
the caller) and the `finally` block runs the forwarding loop regardless. -/
theorem ingest_failure_isolated :
    ∀ (ε : Type) (ingest : Except ε Unit) (fwd : String → Except ε Unit)
      (forward_address : String),
      emailEvent ingest fwd forward_address =
        emailEvent (Except.ok ()) fwd forward_address := by
  intro ε ingest fwd forward_address
  unfold emailEvent tryCatchFinally
  cases hfl : (forwardLoop fwd (forwardList forward_address)).2 with
  | none => cases ingest <;> rfl
  | some e => cases ingest <;> rfl

/-! ## Claim C5 — the `from` bind value -/

/-- C5 counterexample: for a parsed message with no `from` address the
INSERT binds JS `undefined` (from `parsedEmail.from?.address`, which has
no `?? 'None'` fallback) — not the string `"None"` — and the bind list is
rejected by the storage binding layer. -/
theorem from_bind_counterexample :
    (insertBinds ⟨some "hi", none, [⟨some "x@y.com", "X"⟩], some "b", some "t"⟩)[1]? =
      some D1Value.undefined ∧
    D1Value.undefined ≠ D1Value.str "None" ∧
    d1BindOk (insertBinds ⟨some "hi", none, [⟨some "x@y.com", "X"⟩], some "b",
      some "t"⟩) = false := by
  refine ⟨by decide, by decide, by decide⟩

/-- C5 (amended): only `subject` and `to` carry a `?? 'None'` fallback;
the `from` column binds the parsed address when present and JS `undefined`
when absent, in which case the storage binding layer rejects the statement
and the insert fails (the error is then swallowed by the handler's
`catch`). -/
theorem from_bind_semantics :
    (∀ m : ParsedEmail, m.«from» = none →
      (insertBinds m)[1]? = some D1Value.undefined ∧
      d1BindOk (insertBinds m) = false ∧
      insertEmail m = Except.error "D1_TYPE_ERROR") ∧
    (∀ (m : ParsedEmail) (a : MailAddress) (s : String),
      m.«from» = some a → a.address = some s →
      (insertBinds m)[1]? = some (D1Value.str s)) := by
  constructor
  · intro m h
    refine ⟨?_, ?_, ?_⟩
    · simp [insertBinds, optAddress, h]
    · simp [d1BindOk, insertBinds, optAddress, h]
    · have hbad : d1BindOk (insertBinds m) = false := by
        simp [d1BindOk, insertBinds, optAddress, h]
      simp [insertEmail, hbad]
  · intro m a s hm ha
    simp [insertBinds, optAddress, hm, ha]

/-- C5 witness: the amended `from` binding rule at a concrete message with
no `from` address and at one with `from` address `"a@b.c"`. -/
theorem from_bind_semantics_witness :
    ((insertBinds ⟨some "hi", none, [⟨some "x@y.com", "X"⟩], some "b", some "t"⟩)[1]? =
      some D1Value.undefined ∧
     d1BindOk (insertBinds ⟨some "hi", none, [⟨some "x@y.com", "X"⟩], some "b",
       some "t"⟩) = false ∧
     insertEmail ⟨some "hi", none, [⟨some "x@y.com", "X"⟩], some "b", some "t"⟩ =
       Except.error "D1_TYPE_ERROR") ∧
    (insertBinds ⟨some "hi", some ⟨some "a@b.c", "A"⟩, [⟨some "x@y.com", "X"⟩],
      some "b", some "t"⟩)[1]? = some (D1Value.str "a@b.c") :=
  ⟨from_bind_semantics.1 ⟨some "hi", none, [⟨some "x@y.com", "X"⟩], some "b",
      some "t"⟩ rfl,
   from_bind_semantics.2 ⟨some "hi", some ⟨some "a@b.c", "A"⟩,
      [⟨some "x@y.com", "X"⟩], some "b", some "t"⟩ ⟨some "a@b.c", "A"⟩ "a@b.c"
      rfl rfl⟩

/-! ## Claim C6 — GET /email/create -/

/-- C6 counterexample: the success envelope of GET /email/create has no
`mode` field in its `data` object, and the handler does have failure
paths — a thrown API error produces a 500 response, as does an
unsuccessful rule-creation result. -/
theorem create_mode_counterexample :
    ((jvalGet ((createHandler (RuleCreateOutcome.result true []) "abc@x.com").body)
        "data").bind (fun d => jvalGet d "mode")) = none ∧
    (createHandler (RuleCreateOutcome.thrown "boom") "abc@x.com").status = 500 ∧
    (createHandler (RuleCreateOutcome.result false ["err"]) "abc@x.com").status = 500 := by
  refine ⟨rfl, rfl, rfl⟩

/-- C6 (amended): GET /email/create returns, when the Cloudflare
rule-creation call reports success, a 200 envelope
`{success:true, data:{fetch_endpoint, address}}` whose `data` carries
exactly the `fetch_endpoint` and `address` fields (no `mode` field); when
the call reports failure, returns a `null` result, or throws, the handler
returns a 500 error envelope instead. -/
theorem create_handler_semantics :
    ∀ email : String,
      (∀ errs, (createHandler (RuleCreateOutcome.result true errs) email).status = 200) ∧
      (∀ errs, jvalGet ((createHandler (RuleCreateOutcome.result true errs) email).body)
        "success" = some (JVal.bool true)) ∧
      (∀ errs, jvalGet ((createHandler (RuleCreateOutcome.result true errs) email).body)
        "data" = some (JVal.obj
          [("fetch_endpoint", JVal.str ("/email/" ++ email)),
           ("address", JVal.str email)])) ∧
      (∀ errs, (createHandler (RuleCreateOutcome.result false errs) email).status = 500) ∧
      (createHandler RuleCreateOutcome.nullResult email).status = 500 ∧
      (∀ msg, (createHandler (RuleCreateOutcome.thrown msg) email).status = 500) := by
  intro email
  exact ⟨fun _ => rfl, fun _ => rfl, fun _ => rfl, fun _ => rfl, rfl, fun _ => rfl⟩

/-! ## Claim C7 — extractor application on GET /email/:address -/

/-- On rows whose `text` column is a string, the `forEach` extractor loop
completes and attaches the cursor extraction of each row's text. -/
theorem applyParser_all_strings (rows : List Row)
    (h : ∀ r ∈ rows, r.text ≠ none) :
    applyParserToRows cursorParseJS rows =
      Except.ok (rows.map (fun r => (r, r.text.bind cursorParseStr))) := by
  induction rows with
  | nil => rfl
  | cons r rest ih =>
    have hr : r.text ≠ none := h r (List.mem_cons_self r rest)
    have hrest : ∀ x ∈ rest, x.text ≠ none := fun x hx => h x (List.mem_cons_of_mem r hx)
    cases ht : r.text with
    | none => exact absurd ht hr
    | some s =>
      simp [applyParserToRows, ht, cursorParseJS, ih hrest, Except.map]

/-- A row with SQL `NULL` in `text` makes the extractor throw, and the
throw propagates out of the `forEach` loop. -/
theorem applyParser_null_text (rows : List Row)
    (h : ∃ r ∈ rows, r.text = none) :
    ∃ m, applyParserToRows cursorParseJS rows = Except.error m := by
  induction rows with
  | nil => simp at h
  | cons r rest ih =>
    cases ht : r.text with
    | none =>
      exact ⟨"Cannot read properties of null (reading 'replace')", by
        simp [applyParserToRows, ht, cursorParseJS]⟩
    | some s =>
      have hrest : ∃ x ∈ rest, x.text = none := by
        rcases h with ⟨x, hx, hnone⟩
        rcases List.mem_cons.mp hx with heq | hmem
        · rw [heq] at hnone
          rw [hnone] at ht
          exact absurd ht (by simp)
        · exact ⟨x, hmem, hnone⟩
      rcases ih hrest with ⟨m, hm⟩
      exact ⟨m, by simp [applyParserToRows, ht, cursorParseJS, hm, Except.map]⟩

/-- C7 counterexample: when the registered extractor `"cursor"` is
supplied and a returned row's `text` column is `NULL`, the request does
NOT succeed with an absent code — the extractor throws inside the
handler's `try` and the whole request becomes the 500 `'Query error'`
envelope. -/
theorem parser_null_text_counterexample :
    emailQueryResponse (some "cursor")
      [⟨some "s", some "f", some "t@x.com", none, none, 0⟩] =
      { status := 500, success := false, data := none,
        error := some "Query error",
        details := some "Cannot read properties of null (reading 'replace')" } := by
  decide

/-- C7 (amended): when the registered extractor name `"cursor"` is
supplied, the extractor is applied to each returned row's `text` column
(never `html`) and its result is attached as the row's `parsed_code`
field; a row whose text is a string with no match gets a `null` code and
the request still succeeds, but a row whose text column is SQL `NULL`
makes the extractor throw, turning the whole request into the 500
`'Query error'` envelope. -/
theorem parser_application_semantics :
    (∀ rows : List Row, (∀ r ∈ rows, r.text ≠ none) →
      emailQueryResponse (some "cursor") rows =
        { status := 200, success := true,
          data := some (rows.map (fun r => (r, some (r.text.bind cursorParseStr)))),
          error := none, details := none }) ∧
    (∀ rows : List Row, (∃ r ∈ rows, r.text = none) →
      (emailQueryResponse (some "cursor") rows).status = 500 ∧
      (emailQueryResponse (some "cursor") rows).success = false) := by
  have hlook : parserFor (some "cursor") = some cursorParseJS := rfl
  constructor
  · intro rows h
    simp [emailQueryResponse, hlook, applyParser_all_strings rows h]
  · intro rows h
    rcases applyParser_null_text rows h with ⟨m, hm⟩
    simp [emailQueryResponse, hlook, hm]

/-- C7 witness: the amended extractor semantics at a one-row database
whose text contains a six-digit code, and at a one-row database with a
`NULL` text column. -/
theorem parser_application_semantics_witness :
    emailQueryResponse (some "cursor")
      [⟨some "s", some "f", some "t@x.com", none, some "your code 123456 ok", 0⟩] =
      { status := 200, success := true,
        data := some [(⟨some "s", some "f", some "t@x.com", none,
          some "your code 123456 ok", 0⟩,
          some ((some "your code 123456 ok").bind cursorParseStr))],
        error := none, details := none } ∧
    (emailQueryResponse (some "cursor")
      [⟨some "s", some "f", some "t@x.com", none, none, 0⟩]).status = 500 ∧
    (emailQueryResponse (some "cursor")
      [⟨some "s", some "f", some "t@x.com", none, none, 0⟩]).success = false :=
  ⟨parser_application_semantics.1
      [⟨some "s", some "f", some "t@x.com", none, some "your code 123456 ok", 0⟩]
      (by decide),
   (parser_application_semantics.2
      [⟨some "s", some "f", some "t@x.com", none, none, 0⟩] (by decide)).1,
   (parser_application_semantics.2
      [⟨some "s", some "f", some "t@x.com", none, none, 0⟩] (by decide)).2⟩

/-! ## Claim C8 — the cursor extractor -/

/-- `findPhrase` fails exactly when the phrase pattern matches at no
position of the text. -/
theorem findPhrase_none_iff (l : List Char) :
    findPhrase l = none ↔ ∀ i, phraseAt (l.drop i) = none := by
  induction l with
  | nil =>
    constructor
    · intro _ i
      rw [List.drop_nil]
      rfl
    · intro _
      rfl
  | cons c rest ih =>
    constructor
    · intro h i
      cases hp : phraseAt (c :: rest) with
      | some d =>
        simp only [findPhrase, hp] at h
        exact Option.noConfusion h
      | none =>
        cases i with
        | zero => exact hp
        | succ j =>
          rw [List.drop_succ_cons]
          have hrest : findPhrase rest = none := by
            simp only [findPhrase, hp] at h
            exact h
          exact (ih.mp hrest) j
    · intro h
      have hp : phraseAt (c :: rest) = none := h 0
      have hrest : findPhrase rest = none :=
        ih.mpr (fun j => by
          have := h (j + 1)
          rwa [List.drop_succ_cons] at this)
      simp only [findPhrase, hp, hrest]

/-- `findSix` fails exactly when no six consecutive digits start at any
position of the text. -/
theorem findSix_none_iff (l : List Char) :
    findSix l = none ↔ ∀ i, sixHere (l.drop i) = false := by
  induction l with
  | nil =>
    constructor
    · intro _ i
      rw [List.drop_nil]
      rfl
    · intro _
      rfl
  | cons c rest ih =>
    constructor
    · intro h i
      by_cases hs : sixHere (c :: rest) = true
      · simp only [findSix, if_pos hs] at h
        exact Option.noConfusion h
      · cases i with
        | zero => exact Bool.eq_false_iff.mpr hs
        | succ j =>
          rw [List.drop_succ_cons]
          have hrest : findSix rest = none := by
            simp only [findSix, if_neg hs] at h
            exact h
          exact (ih.mp hrest) j
    · intro h
      have hs : sixHere (c :: rest) = false := h 0
      have hrest : findSix rest = none :=
        ih.mpr (fun j => by
          have := h (j + 1)
          rwa [List.drop_succ_cons] at this)
      simp [findSix, hs, hrest]

/-- The extractor yields no result exactly when both regexes fail on the
cleaned text. -/
theorem cursor_none_aux (s : String) :
    cursorParseStr s = none ↔
      (findPhrase (trimWs (collapseWs s.data)) = none ∧
       findSix (trimWs (collapseWs s.data)) = none) := by
  simp only [cursorParseStr]
  cases hp : findPhrase (trimWs (collapseWs s.data)) with
  | some d => simp [hp]
  | none =>
    cases hx : findSix (trimWs (collapseWs s.data)) with
    | some d => simp [hp, hx]
    | none => simp [hp, hx]

/-- The phrase regex returns its leftmost match. -/
theorem findPhrase_found (l : List Char) (i : Nat) (d : List Char)
    (hbefore : ∀ j, j < i → phraseAt (l.drop j) = none)
    (hi : phraseAt (l.drop i) = some d) : findPhrase l = some d := by
  induction l generalizing i with
  | nil =>
    rw [List.drop_nil] at hi
    exact absurd hi (by simp [phraseAt, matchLitCI])
  | cons c rest ih =>
    cases i with
    | zero =>
      rw [List.drop_zero] at hi
      simp only [findPhrase, hi]
    | succ j =>
      have hp : phraseAt (c :: rest) = none := hbefore 0 (Nat.succ_pos j)
      rw [List.drop_succ_cons] at hi
      have hbefore' : ∀ k, k < j → phraseAt (rest.drop k) = none := by
        intro k hk
        have := hbefore (k + 1) (Nat.succ_lt_succ hk)
        rwa [List.drop_succ_cons] at this
      simp only [findPhrase, hp]
      exact ih j hbefore' hi

/-- The six-digit fallback regex returns its leftmost match. -/
theorem findSix_found (l : List Char) (i : Nat)
    (hbefore : ∀ j, j < i → sixHere (l.drop j) = false)
    (hi : sixHere (l.drop i) = true) :
    findSix l = some ((l.drop i).take 6) := by
  induction l generalizing i with
  | nil =>
    rw [List.drop_nil] at hi
    exact absurd hi (by decide)
  | cons c rest ih =>
    cases i with
    | zero =>
      rw [List.drop_zero] at hi
      rw [List.drop_zero]
      simp only [findSix, if_pos hi]
    | succ j =>
      have hs : sixHere (c :: rest) = false := hbefore 0 (Nat.succ_pos j)
      rw [List.drop_succ_cons] at hi
      have hbefore' : ∀ k, k < j → sixHere (rest.drop k) = false := by
        intro k hk
        have := hbefore (k + 1) (Nat.succ_lt_succ hk)
        rwa [List.drop_succ_cons] at this
      rw [List.drop_succ_cons]
      simp only [findSix, hs]
      simp only [Bool.false_eq_true, if_false]
      exact ih j hbefore' hi

/-- C8: the cursor extractor first collapses whitespace runs to single
spaces and trims; it returns the digits captured by the leftmost
case-insensitive match of "one-time code is" with optional colon,
optional whitespace and one or more digits; failing that it returns the
first six consecutive digits found anywhere in the cleaned text; and it
returns no result exactly when neither pattern matches anywhere — in
particular `"one-time code is: 340325"` gives `"340325"`, a bare
`"The code 654321 expires"` gives `"654321"`, and text with no phrase and
no six consecutive digits gives no result (not an error). -/
theorem cursor_extractor_semantics :
    cursorParseStr "one-time code is: 340325" = some "340325" ∧
    cursorParseStr "one-time  CODE is 99" = some "99" ∧
    cursorParseStr "The code 654321 expires" = some "654321" ∧
    cursorParseStr "no code in here 123" = none ∧
    (∀ (s : String) (i : Nat) (d : List Char),
      (∀ j, j < i → phraseAt ((trimWs (collapseWs s.data)).drop j) = none) →
      phraseAt ((trimWs (collapseWs s.data)).drop i) = some d →
      cursorParseStr s = some (⟨d⟩ : String)) ∧
    (∀ (s : String) (i : Nat),
      findPhrase (trimWs (collapseWs s.data)) = none →
      (∀ j, j < i → sixHere ((trimWs (collapseWs s.data)).drop j) = false) →
      sixHere ((trimWs (collapseWs s.data)).drop i) = true →
      cursorParseStr s = some (⟨((trimWs (collapseWs s.data)).drop i).take 6⟩ : String)) ∧
    (∀ s : String, cursorParseStr s = none ↔
      ((∀ i, phraseAt ((trimWs (collapseWs s.data)).drop i) = none) ∧
       (∀ i, sixHere ((trimWs (collapseWs s.data)).drop i) = false))) := by
  refine ⟨by decide, by decide, by decide, by decide, ?_, ?_, ?_⟩
  · intro s i d hbefore hi
    have hfp : findPhrase (trimWs (collapseWs s.data)) = some d :=
      findPhrase_found _ i d hbefore hi
    simp only [cursorParseStr, hfp]
  · intro s i hfp hbefore hi
    have hfs : findSix (trimWs (collapseWs s.data)) =
        some (((trimWs (collapseWs s.data)).drop i).take 6) :=
      findSix_found _ i hbefore hi
    simp only [cursorParseStr, hfp, hfs, Option.map]
  · intro s
    rw [cursor_none_aux, findPhrase_none_iff, findSix_none_iff]

/-- C8 witness: the leftmost-match characterizations evaluated at the two
concrete messages of the specification (phrase at position 0 of the
cleaned text, six-digit window at position 9). -/
theorem cursor_extractor_semantics_witness :
    cursorParseStr "one-time code is: 340325" = some (⟨"340325".data⟩ : String) ∧
    cursorParseStr "The code 654321 expires" =
      some (⟨((trimWs (collapseWs ("The code 654321 expires" : String).data)).drop 9).take 6⟩ : String) :=
  ⟨cursor_extractor_semantics.2.2.2.2.1 "one-time code is: 340325" 0 "340325".data
      (fun j hj => absurd hj (Nat.not_lt_zero j)) (by decide),
   cursor_extractor_semantics.2.2.2.2.2.1 "The code 654321 expires" 9
      (by decide) (by decide) (by decide)⟩

/-! ## Claim C9 — routing safety -/

/-- `split` never produces an empty group list. -/
theorem splitOnChar_ne_nil (sep : Char) (l : List Char) :
    splitOnChar sep l ≠ [] := by
  cases l with
  | nil => simp [splitOnChar]
  | cons c rest =>
    simp only [splitOnChar]
    cases h : splitOnChar sep rest with
    | nil => simp
    | cons g gs =>
      by_cases hc : c = sep
      · simp [hc]
      · simp [hc]

/-- One step of `split` when the split of the tail is known. -/
theorem splitOnChar_cons_eq (sep x : Char) (rest : List Char) (g0 : List Char)
    (gs : List (List Char)) (h : splitOnChar sep rest = g0 :: gs) :
    splitOnChar sep (x :: rest) =
      if x = sep then [] :: g0 :: gs else (x :: g0) :: gs := by
  simp only [splitOnChar, h]

/-- Every character of a split group is a character of the split input. -/
theorem mem_splitOnChar (sep : Char) (l : List Char) (g : List Char) (c : Char)
    (hg : g ∈ splitOnChar sep l) (hc : c ∈ g) : c ∈ l := by
  induction l generalizing g with
  | nil =>
    simp only [splitOnChar, List.mem_singleton] at hg
    rw [hg] at hc
    exact absurd hc (List.not_mem_nil c)
  | cons x rest ih =>
    cases h : splitOnChar sep rest with
    | nil => exact absurd h (splitOnChar_ne_nil sep rest)
    | cons g0 gs =>
      rw [splitOnChar_cons_eq sep x rest g0 gs h] at hg
      by_cases hx : x = sep
      · rw [if_pos hx] at hg
        rcases List.mem_cons.mp hg with hge | hmem
        · rw [hge] at hc
          exact absurd hc (List.not_mem_nil c)
        · exact List.mem_cons_of_mem x (ih g (by rw [h]; exact hmem) hc)
      · rw [if_neg hx] at hg
        rcases List.mem_cons.mp hg with hge | hmem
        · rw [hge] at hc
          rcases List.mem_cons.mp hc with hcx | hcg
          · rw [hcx]
            exact List.mem_cons_self x rest
          · exact List.mem_cons_of_mem x (ih g0 (by rw [h]; exact List.mem_cons_self g0 gs) hcg)
        · exact List.mem_cons_of_mem x (ih g (by rw [h]; exact List.mem_cons_of_mem g0 hmem) hc)

/-- Tokenizing a percent-free string keeps every character as itself. -/
theorem uriTokenize_no_pct (l : List Char) (h : ∀ c ∈ l, c ≠ '%') :
    uriTokenize l = some (l.map Sum.inl) := by
  induction l with
  | nil => rfl
  | cons c rest ih =>
    have hc : c ≠ '%' := h c (List.mem_cons_self c rest)
    have hrest : ∀ x ∈ rest, x ≠ '%' := fun x hx => h x (List.mem_cons_of_mem c hx)
    rw [uriTokenize.eq_def]
    simp only [if_neg hc]
    rw [ih hrest]
    rfl

/-- Assembling a token list with no escape bytes returns the characters
unchanged. -/
theorem uriAssemble_inl (l : List Char) :
    uriAssemble (l.map Sum.inl) 0 0 0 false = some l := by
  induction l with
  | nil => rfl
  | cons c rest ih =>
    simp [uriAssemble, ih]

/-- `decodeURIComponent` succeeds on any percent-free string. -/
theorem decode_no_pct (s : String) (h : ∀ c ∈ s.data, c ≠ '%') :
    decodeURIComponent s = Except.ok s := by
  simp only [decodeURIComponent, uriTokenize_no_pct s.data h, uriAssemble_inl]

/-- Characters of a path segment are characters of the path. -/
theorem pathParts_chars (p : String) (u : String) (c : Char)
    (hu : u ∈ pathParts p) (hc : c ∈ u.data) : c ∈ p.data := by
  have hmap : u ∈ (splitOnChar '/' p.data).map (fun cs => (⟨cs⟩ : String)) :=
    List.mem_of_mem_filter hu
  rcases List.mem_map.mp hmap with ⟨g, hg, hgu⟩
  have : c ∈ g := by
    rw [← hgu] at hc
    exact hc
  exact mem_splitOnChar '/' p.data g c hg this

/-- The segment loop can only throw by decoding a parameter segment, and
decoding cannot throw when no path segment contains `%`. -/
theorem matchSegs_no_error (rps : List String) (ups : List String)
    (acc : List (String × String))
    (h : ∀ u ∈ ups, ∀ c ∈ u.data, c ≠ '%') :
    matchSegs rps ups acc ≠ Except.error () := by
  induction rps generalizing ups acc with
  | nil => simp [matchSegs]
  | cons rp rest ih =>
    cases ups with
    | nil => simp [matchSegs]
    | cons up urest =>
      have hup : ∀ c ∈ up.data, c ≠ '%' := h up (List.mem_cons_self up urest)
      have hurest : ∀ u ∈ urest, ∀ c ∈ u.data, c ≠ '%' :=
        fun u hu => h u (List.mem_cons_of_mem up hu)
      simp only [matchSegs]
      by_cases hparam : isParamSeg rp = true
      · rw [if_pos hparam, decode_no_pct up hup]
        exact ih urest _ hurest
      · rw [if_neg hparam]
        by_cases heq : rp = up
        · rw [if_pos heq]
          exact ih urest acc hurest
        · rw [if_neg heq]
          simp

/-- The route-table loop never throws on a percent-free path. -/
theorem matchRouteAux_no_error (rs : List (String × String)) (method url : String)
    (h : ∀ c ∈ url.data, c ≠ '%') :
    matchRouteAux rs method url ≠ Except.error () := by
  induction rs with
  | nil => simp [matchRouteAux]
  | cons r rest ih =>
    have hsegs : ∀ u ∈ pathParts url, ∀ c ∈ u.data, c ≠ '%' :=
      fun u hu c hc => h c (pathParts_chars url u c hu hc)
    simp only [matchRouteAux]
    by_cases hm : r.1 ≠ method
    · rw [if_pos hm]
      exact ih
    · rw [if_neg hm]
      by_cases hlen : (pathParts r.2).length ≠ (pathParts url).length
      · rw [if_pos hlen]
        exact ih
      · rw [if_neg hlen]
        cases hms : matchSegs (pathParts r.2) (pathParts url) [] with
        | error e =>
          cases e
          exact absurd hms (matchSegs_no_error _ _ [] hsegs)
        | ok o =>
          cases o with
          | some ps => simp
          | none => exact ih

/-- C9 counterexample: a path that matches the `/email/:address` shape but
whose address segment is malformed percent-encoding (`"/email/%zz"`) makes
`decodeURIComponent` throw a `URIError` inside `matchRoute`; nothing
catches it, so route matching does not complete and no 404 body is
produced — the dispatcher propagates the exception. -/
theorem route_decode_counterexample :
    matchRoute "GET" "/email/%zz" = Except.error () ∧
    fetchRouting "GET" "/email/%zz" = Except.error () :=
  ⟨rfl, rfl⟩

/-- C9 (amended): whenever no registered route matches, the dispatcher
returns the uniform 404 JSON error body; and route matching completes
without throwing on every path containing no `%` character — but a path
binding a parameter segment with malformed percent-encoding makes
`matchRoute` throw an uncaught `URIError`, so routing is not exception-free
in general. -/
theorem routing_semantics :
    (∀ method path : String, matchRoute method path = Except.ok none →
      fetchRouting method path = Except.ok (FetchRouting.notFound notFoundResponse)) ∧
    (∀ method path : String, (∀ c ∈ path.data, c ≠ '%') →
      matchRoute method path ≠ Except.error ()) := by
  constructor
  · intro method path h
    simp only [fetchRouting, h]
  · intro method path h
    exact matchRouteAux_no_error routesModel method path h

/-- C9 witness: the no-match 404 at `GET /nope` and throw-freedom at the
percent-free path `/email/abc`. -/
theorem routing_semantics_witness :
    fetchRouting "GET" "/nope" = Except.ok (FetchRouting.notFound notFoundResponse) ∧
    matchRoute "GET" "/email/abc" ≠ Except.error () :=
  ⟨routing_semantics.1 "GET" "/nope" rfl,
   routing_semantics.2 "GET" "/email/abc" (by decide)⟩

/-! ## Claim C10 — unknown parser names -/

/-- C10: a GET /email/:address request whose `parser` query parameter
names an extractor that is not in the registry does not fail: the lookup
yields no extractor, the rows are returned unchanged with no `parsed_code`
field attached, and the response is the normal success envelope. -/
theorem unknown_parser_ok :
    ∀ (name : String) (rows : List Row), parsers name = none →
      emailQueryResponse (some name) rows =
        { status := 200, success := true,
          data := some (rows.map (fun r => (r, none))),
          error := none, details := none } := by
  intro name rows h
  by_cases hempty : name = ""
  · simp [emailQueryResponse, parserFor, hempty]
  · simp [emailQueryResponse, parserFor, hempty, h]

/-- C10 witness: the unregistered extractor name `"nope"` on a one-row
database. -/
theorem unknown_parser_ok_witness :
    parsers "nope" = none ∧
    emailQueryResponse (some "nope")
      [⟨some "s", some "f", some "t@x.com", none, some "body", 0⟩] =
      { status := 200, success := true,
        data := some [(⟨some "s", some "f", some "t@x.com", none, some "body", 0⟩,
          none)],
        error := none, details := none } :=
  ⟨rfl, unknown_parser_ok "nope"
      [⟨some "s", some "f", some "t@x.com", none, some "body", 0⟩] rfl⟩

end EmailWorker
